import Mathlib

/-!
Verification development for the GhostGate HTTP gateway (Go).

The definitions below are a shallow embedding of the request-routing and
admission pipeline of `src/unnamed/part_000` (the multi-domain variant of
`main.go`): the `http.ServeMux` registration and dispatch performed in
`main`, the handler constructors `serveStaticFilesWithCache`,
`serveHealthCheck`, `serveWelcomePage`, `hostHandler`, `rateLimitedProxy`,
`gzipMiddleware` and `cacheMiddleware`, the token-bucket limiter from
`golang.org/x/time/rate` as instantiated by `rate.NewLimiter(1, 5)`, the
response cache from `github.com/patrickmn/go-cache` as instantiated by
`cache.New(5*time.Minute, 10*time.Minute)`, and the `reloadConfig` closure.

Paths are modelled as lists of segments: the rooted path `"/a/b"` is
`["a", "b"]`, `"/"` is `[""]` and a trailing slash is a final `""` segment
(`"/a/"` is `["a", ""]`), so that `pathStr` reproduces the string form.
External collaborators (the file system, the reverse-proxy transport, the
gzip compressor, the MIME table) are fields of a `World` record, and wall
clock time is an explicit rational parameter (seconds).
-/

namespace GhostGate

/-- String form of a rooted path given by its segments. -/
def pathStr (segs : List String) : String :=
  "/" ++ String.intercalate "/" segs

/-- Core of Go `path.Clean` on a rooted path: drops empty and `"."`
segments, and a `".."` segment removes the preceding segment (at the root
it is dropped).  The accumulator holds the output segments reversed. -/
def cleanAux (acc : List String) : List String → List String
  | [] => acc
  | s :: rest =>
    if s = "" ∨ s = "." then cleanAux acc rest
    else if s = ".." then cleanAux acc.tail rest
    else cleanAux (s :: acc) rest

/-- `net/http.cleanPath` on segment lists: `path.Clean` on the rooted path,
restoring a trailing slash when the input had one, and `"/"` when the
result is empty. -/
def cleanPathSegs (p : List String) : List String :=
  let core := (cleanAux [] p).reverse
  if core.isEmpty then [""]
  else if p.getLast? = some "" then core ++ [""] else core

/-- Core of `path/filepath.Clean` on a relative path: like `cleanAux` but
leading `".."` segments are preserved (they cannot be popped).  The
accumulator holds the output segments reversed. -/
def joinAux (acc : List String) : List String → List String
  | [] => acc
  | s :: rest =>
    if s = "" ∨ s = "." then joinAux acc rest
    else if s = ".." then
      match acc with
      | [] => joinAux [".."] rest
      | a :: tl => if a = ".." then joinAux (".." :: a :: tl) rest else joinAux tl rest
    else joinAux (s :: acc) rest

/-- `filepath.Join(base, p)` on segment lists (concatenate, then clean as a
relative path), as in `filePath := filepath.Join(staticDir, r.URL.Path)`. -/
def joinRel (base p : List String) : List String :=
  (joinAux [] (base ++ p)).reverse

/-- Split a character list at `'/'` (the semantics of
`strings.Split(s, "/")`). -/
def splitSlashAux (cur : List Char) : List Char → List String
  | [] => [String.mk cur.reverse]
  | c :: rest =>
    if c = '/' then String.mk cur.reverse :: splitSlashAux [] rest
    else splitSlashAux (c :: cur) rest

/-- Split a string at `'/'`. -/
def splitSlash (s : String) : List String :=
  splitSlashAux [] s.toList

/-- Segments of a relative path string such as a configured `static_dir`
(`"./static"` becomes `[".", "static"]`; cleaning happens in `joinRel`). -/
def segsOfRel (s : String) : List String :=
  splitSlash s

/-- An inbound HTTP request as seen by the pipeline.  `rawSegs` is the
escaped path (`r.URL.EscapedPath()`), which Go 1.22+ `ServeMux` cleans and
matches on; `pathSegs` is the decoded path (`r.URL.Path`), which the
handlers use.  For a request with no percent-escapes the two agree. -/
structure Request where
  method : String
  host : String
  pathSegs : List String
  rawSegs : List String
  query : String
  acceptEncoding : String
  remoteAddr : String
deriving Repr, DecidableEq

/-- `r.URL.String()` for a server-side request URL: escaped path plus
optional query.  This is the cache key computed by `cacheMiddleware`. -/
def urlString (r : Request) : String :=
  pathStr r.rawSegs ++ (if r.query = "" then "" else "?" ++ r.query)

/-- An HTTP response as accumulated by a `ResponseWriter`. -/
structure Response where
  status : Nat
  headers : List (String × String)
  body : String
deriving Repr, DecidableEq

/-- `http.Error(w, msg, code)`: plain-text headers and the message plus a
newline as body. -/
def httpError (code : Nat) (msg : String) : Response :=
  { status := code
    headers := [("Content-Type", "text/plain; charset=utf-8"),
                ("X-Content-Type-Options", "nosniff")]
    body := msg ++ "\n" }

/-- One entry of `DomainConfig.ProxyRoutes` (`path`, `backend`).  The
configuration has no rate-limit field: `main` installs a fixed
`rate.NewLimiter(1, 5)` for every proxy route. -/
structure ProxyRoute where
  path : String
  backend : String
deriving Repr, DecidableEq

/-- `DomainConfig` from the source: a domain, an optional static directory
and the proxy routes. -/
structure DomainConfig where
  domain : String
  staticDir : String
  proxyRoutes : List ProxyRoute
deriving Repr, DecidableEq

/-- The part of `Config` the routing pipeline consumes. -/
structure Config where
  port : Nat
  domains : List DomainConfig
deriving Repr, DecidableEq

/-- State of one `rate.Limiter`: current tokens and the time of the last
state update, in seconds. -/
structure LimiterState where
  tokens : ℚ
  last : ℚ
deriving Repr, DecidableEq

/-- Token refill of `rate.Limiter.advance` for the limiter
`rate.NewLimiter(1, 5)`: tokens grow at 1 token/second since the last
update, capped at the burst 5.  A fresh limiter (`none`, as created by
`rate.NewLimiter` whose zero `last` time makes the first refill saturate)
advances to the full burst. -/
def advance : Option LimiterState → ℚ → ℚ
  | none, _ => 5
  | some l, now => min 5 (l.tokens + (now - l.last))

/-- `limiter.Allow()` at time `now`: refill, then admit and consume one
token if at least one is available; a rejected call leaves the limiter
state unchanged. -/
def allowStep (cur : Option LimiterState) (now : ℚ) : Bool × Option LimiterState :=
  let adv := advance cur now
  if 1 ≤ adv then (true, some ⟨adv - 1, now⟩) else (false, cur)

/-- One entry of the go-cache response cache: key, stored body bytes and
absolute expiry time.  `cacheMiddleware` stores only the recorded body. -/
structure CacheEntry where
  key : String
  body : String
  expiry : ℚ
deriving Repr, DecidableEq

/-- Shared mutable state of the process: the global `responseCache` and the
per-route limiters (keyed by the route's configured path, one fresh
`rate.NewLimiter(1, 5)` per registered proxy route). -/
structure ServerState where
  cache : List CacheEntry
  limiters : List (String × LimiterState)
deriving Repr, DecidableEq

/-- `responseCache.Get`: a stored entry is returned while it has not
expired (go-cache treats `now > expiry` as expired). -/
def cacheGet (cache : List CacheEntry) (key : String) (now : ℚ) : Option String :=
  match cache.find? (fun e => e.key == key) with
  | some e => if now ≤ e.expiry then some e.body else none
  | none => none

/-- `responseCache.Set`: replace any entry for the key. -/
def cacheSet (cache : List CacheEntry) (key body : String) (expiry : ℚ) : List CacheEntry :=
  ⟨key, body, expiry⟩ :: cache.filter (fun e => e.key != key)

/-- The go-cache default expiration configured by
`cache.New(5*time.Minute, 10*time.Minute)`: 5 minutes, in seconds. -/
def cacheTTL : ℚ := 300

/-- Store a limiter state under a route key. -/
def setLimiter (ls : List (String × LimiterState)) (k : String) (v : LimiterState) :
    List (String × LimiterState) :=
  (k, v) :: ls.filter (fun p => p.1 != k)

/-- One file-system node as observed through `os.Stat`/`os.ReadDir`:
a regular file with contents, a directory with entry names, or a path
whose `os.Stat` fails with a non-`IsNotExist` error (permission). -/
inductive FsNode where
  | file (content : String)
  | dir (entries : List String)
  | denied
deriving Repr, DecidableEq

/-- External collaborators: the file system keyed by cleaned relative
path segments, the reverse-proxy transport (backend URL and request to
backend response), the gzip compressor, and the MIME table
`mime.TypeByExtension`. -/
structure World where
  fs : List String → Option FsNode
  backend : String → Request → Response
  gz : String → String
  mime : String → String

/-- Defunctionalised handlers: the terminal handlers and middleware
closures built in `main`. -/
inductive Handler where
  | staticFiles (staticSegs : List String)
  | health
  | welcome
  | proxyH (routeId : String) (backendURL : String)
  | hostH (domain : String) (inner : Handler)
  | gzipMw (inner : Handler)
  | cacheMw (inner : Handler)
deriving Repr, DecidableEq

/-- Result of running a handler: the response, the updated shared state,
the path of the file whose contents `http.ServeFile` returned (if any),
the number of reverse-proxy backend invocations, and the number of
terminal-handler executions. -/
structure RunResult where
  resp : Response
  st : ServerState
  servedFile : Option (List String)
  backendCalls : Nat
  termCalls : Nat
deriving Repr, DecidableEq

/-- `filepath.Ext`: the suffix starting at the final dot of the last
element, empty when there is no dot. -/
def extOfChars : List Char → String
  | [] => ""
  | c :: rest => if c = '.' then "." ++ String.mk rest.reverse else extOfChars rest

/-- `filepath.Ext` on a file name. -/
def extOf (name : String) : String :=
  extOfChars name.toList.reverse

/-- Substring test on character lists, for `strings.Contains`. -/
def hasSubList (needle : List Char) : List Char → Bool
  | [] => needle.isEmpty
  | c :: rest => needle.isPrefixOf (c :: rest) || hasSubList needle rest

/-- `strings.Contains s pat`. -/
def strContains (s pat : String) : Bool :=
  hasSubList pat.toList s.toList

/-- The host test of `hostHandler`:
`r.Host == domain || strings.HasPrefix(r.Host, domain+":")`. -/
def hostMatches (domain host : String) : Bool :=
  host == domain || (domain ++ ":").toList.isPrefixOf host.toList

/-- The fixed body written by `serveWelcomePage` (the Go raw string,
with its tab indentation). -/
def welcomeBody : String :=
  "\n\t\t\t<html>\n\t\t\t<head><title>Welcome to GhostGate</title></head>\n\t\t\t<body>\n\t\t\t<h1>Welcome to GhostGate</h1>\n\t\t\t<p>If you see this page, the GhostGate server is running successfully.</p>\n\t\t\t<p>Configure your server by editing <code>gate.conf</code> or adding files to <code>conf.d/</code>.</p>\n\t\t\t</body>\n\t\t\t</html>\n\t\t"

/-- The directory index generated by `serveStaticFilesWithCache`. -/
def dirListingBody (entries : List String) : String :=
  "<html><body><ul>" ++
    String.join (entries.map fun name =>
      "<li><a href=\"" ++ name ++ "\">" ++ name ++ "</a></li>") ++
  "</ul></body></html>"

/-- `mime.TypeByExtension` with the handler's `application/octet-stream`
fallback. -/
def mimeFor (w : World) (fileName : String) : String :=
  let t := w.mime (extOf fileName)
  if t = "" then "application/octet-stream" else t

/-- The last path segment (the file name `filepath.Ext` inspects). -/
def lastSeg (l : List String) : String :=
  l.getLast?.getD ""

/-- Run one handler on one request at time `now`.

* `staticFiles` is `serveStaticFilesWithCache`: join the decoded request
  path under the static root, then 404 on a missing path, 403 on a stat
  error, a generated index for a directory, and otherwise serve the file
  through `http.ServeFile` — which first rejects any decoded request path
  containing a `".."` element with 400 `invalid URL path` (`Content-Type`
  and `Cache-Control` were already stamped before the call).
* `proxyH` is `rateLimitedProxy(proxy, rate.NewLimiter(1, 5))`: a
  rejected `limiter.Allow()` yields 429 without touching the backend; an
  admitted request sets `X-Forwarded-For` and forwards to the backend.
* `hostH` is `hostHandler`: requests for another host get a bare 404.
* `gzipMw` is `gzipMiddleware`: pass-through unless the client's
  `Accept-Encoding` contains `gzip`, else stamp `Content-Encoding` and
  compress the body written through the wrapped writer.
* `cacheMw` is `cacheMiddleware`: on an unexpired entry for
  `r.URL.String()` write the stored body (only) and return; on a miss run
  the inner handler into a recorder, replay its headers, status and body,
  and store the body with the default TTL. -/
def run (w : World) : Handler → Request → ℚ → ServerState → RunResult
  | .staticFiles staticSegs, r, _, st =>
    let fp := joinRel staticSegs r.pathSegs
    match w.fs fp with
    | none => ⟨httpError 404 "404 - Not Found", st, none, 0, 1⟩
    | some .denied => ⟨httpError 403 "403 - Forbidden", st, none, 0, 1⟩
    | some (.dir entries) =>
      ⟨⟨200, [("Content-Type", "text/html")], dirListingBody entries⟩, st, none, 0, 1⟩
    | some (.file content) =>
      if r.pathSegs.contains ".." then
        ⟨{ status := 400
           headers := [("Content-Type", "text/plain; charset=utf-8"),
                       ("X-Content-Type-Options", "nosniff"),
                       ("Cache-Control", "public, max-age=3600")]
           body := "invalid URL path\n" }, st, none, 0, 1⟩
      else
        ⟨⟨200, [("Content-Type", mimeFor w (lastSeg fp)),
                ("Cache-Control", "public, max-age=3600")], content⟩,
         st, some fp, 0, 1⟩
  | .health, _, _, st => ⟨⟨200, [], "OK"⟩, st, none, 0, 1⟩
  | .welcome, _, _, st =>
    ⟨⟨200, [("Content-Type", "text/html")], welcomeBody⟩, st, none, 0, 1⟩
  | .proxyH routeId b, r, now, st =>
    let adv := advance (st.limiters.lookup routeId) now
    if 1 ≤ adv then
      ⟨w.backend b r,
       { st with limiters := setLimiter st.limiters routeId ⟨adv - 1, now⟩ },
       none, 1, 1⟩
    else
      ⟨httpError 429 "429 - Too Many Requests", st, none, 0, 1⟩
  | .hostH domain inner, r, now, st =>
    if hostMatches domain r.host then run w inner r now st
    else ⟨⟨404, [], "404 - Not Found"⟩, st, none, 0, 0⟩
  | .gzipMw inner, r, now, st =>
    if strContains r.acceptEncoding "gzip" then
      let res := run w inner r now st
      { res with resp := { status := res.resp.status
                           headers := ("Content-Encoding", "gzip") :: res.resp.headers
                           body := w.gz res.resp.body } }
    else run w inner r now st
  | .cacheMw inner, r, now, st =>
    let key := urlString r
    match cacheGet st.cache key now with
    | some body => ⟨⟨200, [], body⟩, st, none, 0, 0⟩
    | none =>
      let res := run w inner r now st
      { res with st := { res.st with
                         cache := cacheSet res.st.cache key res.resp.body (now + cacheTTL) } }

/-- One registered `ServeMux` pattern with its handler. -/
structure MuxEntry where
  pattern : List String
  handler : Handler
deriving Repr, DecidableEq

/-- Literal `ServeMux` pattern matching: a pattern ending in a slash
matches every path strictly extending its prefix, any other pattern
matches only the identical path. -/
def patMatch (pat path : List String) : Bool :=
  if pat.getLast? = some "" then
    pat.dropLast.isPrefixOf path && path != pat.dropLast
  else pat == path

/-- Pattern precedence: among literal patterns matching the same path the
longer (more specific) one wins. -/
def patRank (pat : List String) : Nat :=
  (pathStr pat).length

/-- One step of `ServeMux` handler selection: keep the better of the
current best entry and the next registered entry. -/
def selectStep (path : List String) (best : Option MuxEntry) (e : MuxEntry) :
    Option MuxEntry :=
  if patMatch e.pattern path then
    match best with
    | none => some e
    | some b => if patRank b.pattern < patRank e.pattern then some e else some b
  else best

/-- `ServeMux` handler selection: the registered matching pattern of
highest precedence. -/
def selectEntry (m : List MuxEntry) (path : List String) : Option MuxEntry :=
  m.foldl (selectStep path) none

/-- `mux.Handle(pattern, handler)`: registering an empty or duplicate
pattern panics, modelled as an error. -/
def register (m : List MuxEntry) (pat : List String) (h : Handler) :
    Except String (List MuxEntry) :=
  if pat.isEmpty then .error "invalid pattern"
  else if m.any (fun e => e.pattern == pat) then
    .error ("conflicting pattern " ++ pathStr pat)
  else .ok (m ++ [⟨pat, h⟩])

/-- Segments of a configured pattern string (`"/api"` gives `["api"]`,
`"/"` gives `[""]`). -/
def parsePat (s : String) : List String :=
  match splitSlash s with
  | "" :: rest => rest
  | l => l

/-- The handler chain `main` registers at `"/"` for a domain with a static
directory:
`hostHandler(d.Domain, gzipMiddleware(cacheMiddleware(serveStaticFilesWithCache(d.StaticDir))))`. -/
def staticChain (domain staticDir : String) : Handler :=
  .hostH domain (.gzipMw (.cacheMw (.staticFiles (segsOfRel staticDir))))

/-- Register a domain's proxy routes in order:
`mux.Handle(route.Path, hostHandler(d.Domain, rateLimitedProxy(proxy, rate.NewLimiter(1, 5))))`. -/
def registerRoutes (domain : String) (routes : List ProxyRoute) (m : List MuxEntry) :
    Except String (List MuxEntry) :=
  match routes with
  | [] => .ok m
  | route :: rest =>
    match register m (parsePat route.path)
        (.hostH domain (.proxyH route.path route.backend)) with
    | .error e => .error e
    | .ok m' => registerRoutes domain rest m'

/-- Register one domain: the static chain at `"/"` when a static directory
is configured, then its proxy routes. -/
def registerDomain (d : DomainConfig) (m : List MuxEntry) : Except String (List MuxEntry) :=
  match (if d.staticDir != "" then register m [""] (staticChain d.domain d.staticDir)
         else .ok m) with
  | .error e => .error e
  | .ok m' => registerRoutes d.domain d.proxyRoutes m'

/-- Register the configured domains in order. -/
def registerDomains (ds : List DomainConfig) (m : List MuxEntry) :
    Except String (List MuxEntry) :=
  match ds with
  | [] => .ok m
  | d :: rest =>
    match registerDomain d m with
    | .error e => .error e
    | .ok m' => registerDomains rest m'

/-- The mux built by `main`: all domains, then the welcome page at `"/"`
when no domain is configured, otherwise the health check at `"/health"`. -/
def buildMux (c : Config) : Except String (List MuxEntry) :=
  match registerDomains c.domains [] with
  | .error e => .error e
  | .ok m =>
    if c.domains.isEmpty then register m [""] Handler.welcome
    else register m ["health"] Handler.health

/-- `http.Redirect(w, r, loc, http.StatusMovedPermanently)`. -/
def redirectResp (loc : String) : Response :=
  ⟨301, [("Location", loc)], ""⟩

/-- The query suffix a redirect preserves. -/
def querySuffix (r : Request) : String :=
  if r.query = "" then "" else "?" ++ r.query

/-- `ServeMux` dispatch (`mux.ServeHTTP`): clean the escaped path and
redirect with 301 when cleaning changes it; otherwise select the best
matching pattern and run its handler; with no match, redirect to the
pattern with a trailing slash when that one is registered, else answer the
mux's 404 page. -/
def dispatch (w : World) (m : List MuxEntry) (r : Request) (now : ℚ) (st : ServerState) :
    RunResult :=
  let cleaned := cleanPathSegs r.rawSegs
  if cleaned != r.rawSegs then
    ⟨redirectResp (pathStr cleaned ++ querySuffix r), st, none, 0, 0⟩
  else
    match selectEntry m r.rawSegs with
    | some e => run w e.handler r now st
    | none =>
      if r.rawSegs.getLast? != some "" && (selectEntry m (r.rawSegs ++ [""])).isSome then
        ⟨redirectResp (pathStr (r.rawSegs ++ [""]) ++ querySuffix r), st, none, 0, 0⟩
      else ⟨httpError 404 "404 page not found", st, none, 0, 0⟩

/-- Run a handler over a sequence of timed requests, threading the shared
state. -/
def runSeq (w : World) (h : Handler) : List (Request × ℚ) → ServerState → List RunResult
  | [], _ => []
  | (r, t) :: rest, st =>
    let res := run w h r t st
    res :: runSeq w h rest res.st

/-- Run the mux dispatcher over a sequence of timed requests, threading
the shared state. -/
def dispatchSeq (w : World) (m : List MuxEntry) :
    List (Request × ℚ) → ServerState → List RunResult
  | [], _ => []
  | (r, t) :: rest, st =>
    let res := dispatch w m r t st
    res :: dispatchSeq w m rest res.st

/-- The `reloadConfig` closure in `main`: attempt to load the new
configuration (the load outcome is the external input); on failure keep
the current configuration and log the failure, on success install the new
one.  Returns the stored configuration and the emitted log lines. -/
def reloadConfig (current : Config) (loadResult : Except String Config) :
    Config × List String :=
  match loadResult with
  | .error e =>
    (current, ["Reloading configurations...", "Failed to reload configurations: " ++ e])
  | .ok newConfig =>
    (newConfig, ["Reloading configurations...", "Configurations reloaded successfully."])

/-! ## Concrete fixtures

A small world and configuration used to evaluate the pipeline on concrete
inputs: one virtual host `example.com` with static root `static`
(containing the file `x.txt`) and one proxy route `/api`, mirroring the
repository's example configuration. -/

/-- A concrete external world: a static root `static` holding `x.txt`,
a backend that always answers `200 BACKEND`, identity compression and an
empty MIME table. -/
def exWorld : World where
  fs := fun p =>
    if p = ["static", "x.txt"] then some (.file "secret")
    else if p = ["static"] then some (.dir ["x.txt"]) else none
  backend := fun _ _ => ⟨200, [], "BACKEND"⟩
  gz := fun s => s
  mime := fun _ => ""

/-- The example configuration: one domain with a static root and the
proxy route `/api` from the repository's sample `gate.conf`. -/
def exCfg : Config where
  port := 443
  domains := [{ domain := "example.com", staticDir := "static",
                proxyRoutes := [{ path := "/api", backend := "http://localhost:3000" }] }]

/-- The mux `main` builds from `exCfg`. -/
def exMux : List MuxEntry :=
  [⟨[""], staticChain "example.com" "static"⟩,
   ⟨["api"], .hostH "example.com" (.proxyH "/api" "http://localhost:3000")⟩,
   ⟨["health"], .health⟩]

/-- A configuration with two static domains. -/
def exCfgTwoStatic : Config where
  port := 443
  domains := [{ domain := "a.com", staticDir := "s1", proxyRoutes := [] },
              { domain := "b.com", staticDir := "s2", proxyRoutes := [] }]

/-- A configuration with no domains at all. -/
def exCfgEmpty : Config where
  port := 443
  domains := []

/-- The shared state at process start: empty cache, no limiter used yet. -/
def emptySt : ServerState := ⟨[], []⟩

/-- A plain GET request (no escapes, no query, no gzip negotiation). -/
def mkReq (host : String) (segs : List String) : Request where
  method := "GET"
  host := host
  pathSegs := segs
  rawSegs := segs
  query := ""
  acceptEncoding := ""
  remoteAddr := "203.0.113.7:4711"

/-- A POST request from another client, same URL shape as `mkReq`. -/
def mkPost (host : String) (segs : List String) : Request where
  method := "POST"
  host := host
  pathSegs := segs
  rawSegs := segs
  query := ""
  acceptEncoding := ""
  remoteAddr := "198.51.100.9:2222"

/-- A POST for `/x.txt` whose Host header carries an explicit port
(`hostHandler` accepts any `domain:port` host for the domain). -/
def exPost8080 : Request where
  method := "POST"
  host := "example.com:8080"
  pathSegs := ["x.txt"]
  rawSegs := ["x.txt"]
  query := ""
  acceptEncoding := ""
  remoteAddr := "198.51.100.9:2222"

/-! ## Routing: literal patterns match exactly (C1) -/

/-- A registered pattern that does not end in a slash matches only the
identical path. -/
theorem patMatch_exact (pat path : List String) (h : pat.getLast? ≠ some "") :
    patMatch pat path = true ↔ pat = path := by
  simp [patMatch, if_neg h]

/-- C1 (amended): literal path matching of the router is exact, not
prefix.  The configured path `/api` matches a request path exactly when
the path is `/api`; in the example mux, `/api` resolves to the proxy
route while `/api/`, `/api/v2/users` and `/apikey` all resolve to the
`"/"` static entry instead. -/
theorem C1_theorem :
    (∀ path : List String, patMatch (parsePat "/api") path = true ↔ path = ["api"]) ∧
    selectEntry exMux ["api"] =
      some ⟨["api"], .hostH "example.com" (.proxyH "/api" "http://localhost:3000")⟩ ∧
    selectEntry exMux ["api", ""] = some ⟨[""], staticChain "example.com" "static"⟩ ∧
    selectEntry exMux ["api", "v2", "users"] = some ⟨[""], staticChain "example.com" "static"⟩ ∧
    selectEntry exMux ["apikey"] = some ⟨[""], staticChain "example.com" "static"⟩ := by
  refine ⟨fun path => ?_, rfl, rfl, rfl, rfl⟩
  rw [show parsePat "/api" = ["api"] from rfl, patMatch_exact _ _ (by decide)]
  exact eq_comm

/-- C1 counterexample: with the example configuration, a request for
`/api/v2/users` is not matched to the `/api` route: the mux selects the
`"/"` static entry and the route's backend is never invoked (and `/api/`
likewise), refuting the claimed prefix matching. -/
theorem C1_counterexample :
    buildMux exCfg = .ok exMux ∧
    selectEntry exMux ["api", "v2", "users"] ≠
      some ⟨["api"], .hostH "example.com" (.proxyH "/api" "http://localhost:3000")⟩ ∧
    (dispatch exWorld exMux (mkReq "example.com" ["api", "v2", "users"]) 0 emptySt).backendCalls
      = 0 ∧
    (dispatch exWorld exMux (mkReq "example.com" ["api", ""]) 0 emptySt).backendCalls = 0 :=
  ⟨rfl, by decide, rfl, rfl⟩

/-! ## Static file safety (C2) -/

/-- Processing a concatenation threads the accumulator. -/
theorem joinAux_append (xs : List String) : ∀ (acc ys : List String),
    joinAux acc (xs ++ ys) = joinAux (joinAux acc xs) ys := by
  induction xs with
  | nil => intro acc ys; rfl
  | cons s rest ih =>
    intro acc ys
    by_cases h1 : s = "" ∨ s = "."
    · simp only [List.cons_append, joinAux, if_pos h1]
      exact ih _ _
    · by_cases h2 : s = ".."
      · cases acc with
        | nil =>
          simp only [List.cons_append, joinAux, if_neg h1, if_pos h2]
          exact ih _ _
        | cons a tl =>
          by_cases h3 : a = ".."
          · simp only [List.cons_append, joinAux, if_neg h1, if_pos h2, if_pos h3]
            exact ih _ _
          · simp only [List.cons_append, joinAux, if_neg h1, if_pos h2, if_neg h3]
            exact ih _ _
      · simp only [List.cons_append, joinAux, if_neg h1, if_neg h2]
        exact ih _ _

/-- The segments `filepath.Clean` keeps verbatim. -/
def keepSeg (s : String) : Bool :=
  !(s == "" || s == ".")

/-- On a suffix without `".."` segments the cleaner only filters and
pushes: it never pops into the accumulator. -/
theorem joinAux_no_dotdot (p : List String) : ∀ acc : List String, (∀ s ∈ p, s ≠ "..") →
    joinAux acc p = (p.filter keepSeg).reverse ++ acc := by
  induction p with
  | nil => intro acc _; rfl
  | cons s rest ih =>
    intro acc h
    have hs : s ≠ ".." := h s (by simp)
    have hrest : ∀ x ∈ rest, x ≠ ".." := fun x hx => h x (by simp [hx])
    by_cases h1 : s = "" ∨ s = "."
    · have hb : keepSeg s = false := by
        rcases h1 with h1 | h1 <;> simp [keepSeg, h1]
      simp only [joinAux, if_pos h1, List.filter_cons, hb]
      exact ih _ hrest
    · have hb : keepSeg s = true := by
        push_neg at h1
        simp [keepSeg, h1.1, h1.2]
      simp only [joinAux, if_neg h1, if_neg hs, List.filter_cons, hb]
      rw [ih _ hrest]
      simp

/-- The static roots reachable inside a handler chain. -/
def staticDirsOf : Handler → List (List String)
  | .staticFiles ss => [ss]
  | .hostH _ inner => staticDirsOf inner
  | .gzipMw inner => staticDirsOf inner
  | .cacheMw inner => staticDirsOf inner
  | _ => []

/-- Whenever running a handler returns the contents of a file
(`servedFile` is set), the decoded request path contained no `".."`
segment (otherwise `http.ServeFile` answers 400) and the file path is the
join of one of the chain's static roots with the request path. -/
theorem run_servedFile (w : World) (h : Handler) (r : Request) (t : ℚ) (st : ServerState)
    (fp : List String) (hs : (run w h r t st).servedFile = some fp) :
    r.pathSegs.contains ".." = false ∧ ∃ ss ∈ staticDirsOf h, fp = joinRel ss r.pathSegs := by
  induction h with
  | staticFiles ss =>
    simp only [run] at hs
    split at hs
    · cases hs
    · cases hs
    · cases hs
    · split at hs
      · cases hs
      · rename_i hdd
        refine ⟨by simpa using hdd, ss, by simp [staticDirsOf], ?_⟩
        cases hs
        rfl
  | health => cases hs
  | welcome => cases hs
  | proxyH routeId b =>
    simp only [run] at hs
    split at hs
    · cases hs
    · cases hs
  | hostH domain inner ih =>
    simp only [run] at hs
    split at hs
    · simpa [staticDirsOf] using ih hs
    · cases hs
  | gzipMw inner ih =>
    simp only [run] at hs
    split at hs
    · simpa [staticDirsOf] using ih hs
    · simpa [staticDirsOf] using ih hs
  | cacheMw inner ih =>
    simp only [run] at hs
    split at hs
    · cases hs
    · simpa [staticDirsOf] using ih hs

/-- The cleaned static root: where `filepath.Join` anchors every request. -/
def rootSegs (staticDir : String) : List String :=
  joinRel (segsOfRel staticDir) []

/-- C2 (amended): the static chain registered for a domain never serves
the contents of a file outside the static root: any served file path
extends the cleaned root, and a decoded request path containing `".."`
never yields file contents at all.  (A raw `/../../etc/passwd` request is
already answered by the mux with a 301 redirect to the cleaned in-root
path — see the counterexample — rather than the claimed 403/404.) -/
theorem C2_theorem (w : World) (domain staticDir : String) (r : Request) (t : ℚ)
    (st : ServerState) :
    (∀ fp, (run w (staticChain domain staticDir) r t st).servedFile = some fp →
        rootSegs staticDir <+: fp) ∧
    (r.pathSegs.contains ".." = true →
        (run w (staticChain domain staticDir) r t st).servedFile = none) := by
  constructor
  · intro fp hs
    obtain ⟨hdd, hex⟩ := run_servedFile w (staticChain domain staticDir) r t st fp hs
    obtain ⟨ss, hmem, heq⟩ := hex
    rw [show ss = segsOfRel staticDir from by
      simpa [staticChain, staticDirsOf] using hmem] at heq
    have hpath : ∀ s ∈ r.pathSegs, s ≠ ".." := by
      intro s hsmem hcon
      subst hcon
      rw [List.contains_eq_any_beq] at hdd
      have hany : r.pathSegs.any (".." == ·) = true :=
        List.any_eq_true.mpr ⟨"..", hsmem, by simp⟩
      simp [hany] at hdd
    have hroot' : rootSegs staticDir = (joinAux [] (segsOfRel staticDir)).reverse := by
      simp [rootSegs, joinRel]
    have hjoin : joinRel (segsOfRel staticDir) r.pathSegs =
        (joinAux [] (segsOfRel staticDir)).reverse ++ r.pathSegs.filter keepSeg := by
      rw [joinRel, joinAux_append, joinAux_no_dotdot _ _ hpath]
      simp
    refine ⟨r.pathSegs.filter keepSeg, ?_⟩
    rw [heq, hjoin, hroot']
  · intro hdd
    cases hopt : (run w (staticChain domain staticDir) r t st).servedFile with
    | none => rfl
    | some fp =>
      have := (run_servedFile w _ r t st fp hopt).1
      rw [this] at hdd
      cases hdd

/-- C2 counterexample: the response to a raw request for
`/../../etc/passwd` on the example host is a 301 redirect to the cleaned
path `/etc/passwd` — not the 403/404 the claim states — and no file
contents are returned. -/
theorem C2_counterexample :
    (dispatch exWorld exMux (mkReq "example.com" ["..", "..", "etc", "passwd"]) 0 emptySt).resp
      = ⟨301, [("Location", "/etc/passwd")], ""⟩ ∧
    (dispatch exWorld exMux (mkReq "example.com" ["..", "..", "etc", "passwd"]) 0
        emptySt).resp.status ≠ 403 ∧
    (dispatch exWorld exMux (mkReq "example.com" ["..", "..", "etc", "passwd"]) 0
        emptySt).resp.status ≠ 404 ∧
    (dispatch exWorld exMux (mkReq "example.com" ["..", "..", "etc", "passwd"]) 0
        emptySt).servedFile = none :=
  ⟨rfl, by decide, by decide, rfl⟩

/-- Witness for `C2_theorem` at concrete inputs: serving `/x.txt` from
the root `static` yields the in-root file `static/x.txt`, and a decoded
path containing `".."` yields no file contents. -/
theorem C2_witness :
    ((run exWorld (staticChain "example.com" "static") (mkReq "example.com" ["x.txt"]) 0
        emptySt).servedFile = some ["static", "x.txt"] ∧
      rootSegs "static" <+: ["static", "x.txt"]) ∧
    ((mkReq "example.com" ["..", "secret"]).pathSegs.contains ".." = true ∧
      (run exWorld (staticChain "example.com" "static") (mkReq "example.com" ["..", "secret"]) 0
        emptySt).servedFile = none) :=
  ⟨⟨rfl,
    (C2_theorem exWorld "example.com" "static" (mkReq "example.com" ["x.txt"]) 0 emptySt).1
      ["static", "x.txt"] rfl⟩,
   by decide,
   (C2_theorem exWorld "example.com" "static" (mkReq "example.com" ["..", "secret"]) 0
      emptySt).2 (by decide)⟩

/-! ## Response caching (C3, C4) -/

/-- Looking up the key just stored finds the stored body while it has not
expired. -/
theorem cacheGet_set_self (c : List CacheEntry) (k b : String) (e t : ℚ) :
    cacheGet (cacheSet c k b e) k t = if t ≤ e then some b else none := by
  simp [cacheGet, cacheSet, List.find?]

/-- A `cacheMiddleware` miss runs the inner handler and stores only the
recorded body under the request's URL string. -/
theorem cacheMw_miss (w : World) (inner : Handler) (r : Request) (t : ℚ) (st : ServerState)
    (hmiss : cacheGet st.cache (urlString r) t = none) :
    run w (.cacheMw inner) r t st =
      { resp := (run w inner r t st).resp
        st := { (run w inner r t st).st with
                cache := cacheSet (run w inner r t st).st.cache (urlString r)
                  (run w inner r t st).resp.body (t + cacheTTL) }
        servedFile := (run w inner r t st).servedFile
        backendCalls := (run w inner r t st).backendCalls
        termCalls := (run w inner r t st).termCalls } := by
  simp [run, hmiss]

/-- A `cacheMiddleware` hit writes the stored body with the implicit 200
status, no headers, and without running the inner handler. -/
theorem cacheMw_hit (w : World) (inner : Handler) (r : Request) (t : ℚ) (st : ServerState)
    (b : String) (hhit : cacheGet st.cache (urlString r) t = some b) :
    run w (.cacheMw inner) r t st = ⟨⟨200, [], b⟩, st, none, 0, 0⟩ := by
  simp [run, hhit]

/-- After a miss populates the cache, any request with the same URL string
inside the TTL window is served the stored body from the cache. -/
theorem cacheMw_hit_after_miss (w : World) (inner : Handler) (r1 r2 : Request) (t1 t2 : ℚ)
    (st : ServerState) (hurl : urlString r1 = urlString r2)
    (hmiss : cacheGet st.cache (urlString r1) t1 = none)
    (hTTL : t2 ≤ t1 + cacheTTL) :
    run w (.cacheMw inner) r2 t2 (run w (.cacheMw inner) r1 t1 st).st =
      ⟨⟨200, [], (run w (.cacheMw inner) r1 t1 st).resp.body⟩,
       (run w (.cacheMw inner) r1 t1 st).st, none, 0, 0⟩ := by
  have hfirst := cacheMw_miss w inner r1 t1 st hmiss
  have hget : cacheGet (run w (.cacheMw inner) r1 t1 st).st.cache (urlString r2) t2 =
      some (run w (.cacheMw inner) r1 t1 st).resp.body := by
    rw [hfirst, ← hurl]
    simp only [cacheGet_set_self, if_pos hTTL]
  exact cacheMw_hit w inner r2 t2 _ _ hget

/-- C3 (amended): within the TTL window, the second of two identical
requests is answered from the cache with the stored body, the implicit
status 200 and no headers (the stored status code and headers are *not*
replayed — only the body is stored), without running the terminal handler
or the backend and without touching the state; the first request's
response and backend count are those of the inner handler. -/
theorem C3_theorem (w : World) (inner : Handler) (r : Request) (t1 t2 : ℚ) (st : ServerState)
    (hmiss : cacheGet st.cache (urlString r) t1 = none)
    (hTTL : t2 ≤ t1 + cacheTTL) :
    (run w (.cacheMw inner) r t2 (run w (.cacheMw inner) r t1 st).st).resp =
      ⟨200, [], (run w (.cacheMw inner) r t1 st).resp.body⟩ ∧
    (run w (.cacheMw inner) r t2 (run w (.cacheMw inner) r t1 st).st).termCalls = 0 ∧
    (run w (.cacheMw inner) r t2 (run w (.cacheMw inner) r t1 st).st).backendCalls = 0 ∧
    (run w (.cacheMw inner) r t2 (run w (.cacheMw inner) r t1 st).st).st =
      (run w (.cacheMw inner) r t1 st).st ∧
    (run w (.cacheMw inner) r t1 st).resp = (run w inner r t1 st).resp ∧
    (run w (.cacheMw inner) r t1 st).backendCalls = (run w inner r t1 st).backendCalls := by
  have hsecond := cacheMw_hit_after_miss w inner r r t1 t2 st rfl hmiss hTTL
  have hfirst := cacheMw_miss w inner r t1 st hmiss
  refine ⟨by rw [hsecond], by rw [hsecond], by rw [hsecond], by rw [hsecond],
    by rw [hfirst], by rw [hfirst]⟩

/-- C3 counterexample: the `404 - Not Found` response of the static
handler is cached; the second identical request receives the stored body
but with status 200 and no headers, so the cache hit does not carry the
stored status code or the stored headers. -/
theorem C3_counterexample :
    (run exWorld (.cacheMw (.staticFiles ["static"])) (mkReq "example.com" ["missing"]) 0
        emptySt).resp.status = 404 ∧
    (run exWorld (.cacheMw (.staticFiles ["static"])) (mkReq "example.com" ["missing"]) 1
        (run exWorld (.cacheMw (.staticFiles ["static"])) (mkReq "example.com" ["missing"]) 0
          emptySt).st).resp =
      ⟨200, [], "404 - Not Found\n"⟩ ∧
    (run exWorld (.cacheMw (.staticFiles ["static"])) (mkReq "example.com" ["missing"]) 0
        emptySt).resp.headers ≠ [] := by
  refine ⟨rfl, ?_, by decide⟩
  rw [cacheMw_hit_after_miss exWorld (.staticFiles ["static"]) (mkReq "example.com" ["missing"])
    (mkReq "example.com" ["missing"]) 0 1 emptySt rfl rfl (by norm_num [cacheTTL])]
  rfl

/-- Witness for `C3_theorem` at a concrete input. -/
theorem C3_witness :
    (cacheGet emptySt.cache (urlString (mkReq "example.com" ["x.txt"])) 0 = none) ∧
    ((1 : ℚ) ≤ 0 + cacheTTL) ∧
    (run exWorld (.cacheMw (.staticFiles ["static"])) (mkReq "example.com" ["x.txt"]) 1
        (run exWorld (.cacheMw (.staticFiles ["static"])) (mkReq "example.com" ["x.txt"]) 0
          emptySt).st).resp =
      ⟨200, [],
        (run exWorld (.cacheMw (.staticFiles ["static"])) (mkReq "example.com" ["x.txt"]) 0
          emptySt).resp.body⟩ ∧
    (run exWorld (.cacheMw (.staticFiles ["static"])) (mkReq "example.com" ["x.txt"]) 1
        (run exWorld (.cacheMw (.staticFiles ["static"])) (mkReq "example.com" ["x.txt"]) 0
          emptySt).st).termCalls = 0 :=
  ⟨rfl, by norm_num [cacheTTL],
   (C3_theorem exWorld (.staticFiles ["static"]) (mkReq "example.com" ["x.txt"]) 0 1 emptySt
      rfl (by norm_num [cacheTTL])).1,
   (C3_theorem exWorld (.staticFiles ["static"]) (mkReq "example.com" ["x.txt"]) 0 1 emptySt
      rfl (by norm_num [cacheTTL])).2.1⟩

/-- `hostHandler` on a request for its own domain delegates to the inner
handler. -/
theorem run_hostH_match (w : World) (d : String) (inner : Handler) (r : Request) (t : ℚ)
    (st : ServerState) (h : hostMatches d r.host = true) :
    run w (.hostH d inner) r t st = run w inner r t st := by
  simp [run, h]

/-- `gzipMiddleware` on a request that does not advertise gzip passes
through unchanged. -/
theorem run_gzip_id (w : World) (inner : Handler) (r : Request) (t : ℚ)
    (st : ServerState) (h : strContains r.acceptEncoding "gzip" = false) :
    run w (.gzipMw inner) r t st = run w inner r t st := by
  simp [run, h]

/-- C4 (amended): the cache key is `r.URL.String()` — the escaped path
plus query — and contains neither the method nor the Host.  In the
deployed chain the host check sits outside the cache, so requests
`hostHandler` rejects never consult it; but any two requests that both
pass the domain's host check and share the URL string share the
ResponseCache entry, whatever their method and whatever Host-header
differences the host check tolerates (such as an explicit `:port`): the
second is served the first one's body from the cache within the TTL
without invoking the terminal handler.  (Stated here for requests that do
not negotiate gzip, so the compression wrapper is pass-through.) -/
theorem C4_theorem (w : World) (domain : String) (inner : Handler) (r1 r2 : Request)
    (t1 t2 : ℚ) (st : ServerState)
    (hh1 : hostMatches domain r1.host = true)
    (hh2 : hostMatches domain r2.host = true)
    (hg1 : strContains r1.acceptEncoding "gzip" = false)
    (hg2 : strContains r2.acceptEncoding "gzip" = false)
    (hurl : urlString r1 = urlString r2)
    (hmiss : cacheGet st.cache (urlString r1) t1 = none)
    (hTTL : t2 ≤ t1 + cacheTTL) :
    (run w (.hostH domain (.gzipMw (.cacheMw inner))) r2 t2
        (run w (.hostH domain (.gzipMw (.cacheMw inner))) r1 t1 st).st).resp.body =
      (run w (.hostH domain (.gzipMw (.cacheMw inner))) r1 t1 st).resp.body ∧
    (run w (.hostH domain (.gzipMw (.cacheMw inner))) r2 t2
        (run w (.hostH domain (.gzipMw (.cacheMw inner))) r1 t1 st).st).termCalls = 0 := by
  rw [run_hostH_match w domain _ r1 t1 st hh1, run_gzip_id w _ r1 t1 st hg1,
    run_hostH_match w domain _ r2 t2 _ hh2, run_gzip_id w _ r2 t2 _ hg2]
  have hsecond := cacheMw_hit_after_miss w inner r1 r2 t1 t2 st hurl hmiss hTTL
  exact ⟨by rw [hsecond], by rw [hsecond]⟩

/-- C4 counterexample, traced through the deployed mux: a GET from Host
`example.com` and a POST from Host `example.com:8080` — requests that
differ in method and in Host header, both accepted by the domain's host
check — share one cache entry for `/x.txt`: the POST is served the body
cached for the GET without the terminal handler running. -/
theorem C4_counterexample :
    (mkReq "example.com" ["x.txt"]).method ≠ exPost8080.method ∧
    (mkReq "example.com" ["x.txt"]).host ≠ exPost8080.host ∧
    hostMatches "example.com" exPost8080.host = true ∧
    (dispatch exWorld exMux (mkReq "example.com" ["x.txt"]) 0 emptySt).resp.body = "secret" ∧
    (dispatch exWorld exMux exPost8080 1
        (dispatch exWorld exMux (mkReq "example.com" ["x.txt"]) 0 emptySt).st).resp.body
      = "secret" ∧
    (dispatch exWorld exMux exPost8080 1
        (dispatch exWorld exMux (mkReq "example.com" ["x.txt"]) 0 emptySt).st).termCalls
      = 0 := by
  refine ⟨by decide, by decide, by decide, rfl, ?_, ?_⟩ <;>
  · rw [show dispatch exWorld exMux exPost8080 1
        (dispatch exWorld exMux (mkReq "example.com" ["x.txt"]) 0 emptySt).st =
      run exWorld (.cacheMw (.staticFiles ["static"])) exPost8080 1
        (run exWorld (.cacheMw (.staticFiles ["static"])) (mkReq "example.com" ["x.txt"]) 0
          emptySt).st from rfl,
      cacheMw_hit_after_miss exWorld (.staticFiles ["static"])
        (mkReq "example.com" ["x.txt"]) exPost8080 0 1 emptySt rfl rfl
        (by norm_num [cacheTTL])]
    try rfl

/-- Witness for `C4_theorem` at a concrete input: the GET / ported-POST
pair above running through the deployed `hostHandler`-`gzip`-`cache`
chain. -/
theorem C4_witness :
    hostMatches "example.com" (mkReq "example.com" ["x.txt"]).host = true ∧
    hostMatches "example.com" exPost8080.host = true ∧
    strContains (mkReq "example.com" ["x.txt"]).acceptEncoding "gzip" = false ∧
    strContains exPost8080.acceptEncoding "gzip" = false ∧
    urlString (mkReq "example.com" ["x.txt"]) = urlString exPost8080 ∧
    cacheGet emptySt.cache (urlString (mkReq "example.com" ["x.txt"])) 0 = none ∧
    ((1 : ℚ) ≤ 0 + cacheTTL) ∧
    (run exWorld (.hostH "example.com" (.gzipMw (.cacheMw (.staticFiles ["static"]))))
        exPost8080 1
        (run exWorld (.hostH "example.com" (.gzipMw (.cacheMw (.staticFiles ["static"]))))
          (mkReq "example.com" ["x.txt"]) 0 emptySt).st).resp.body =
      (run exWorld (.hostH "example.com" (.gzipMw (.cacheMw (.staticFiles ["static"]))))
        (mkReq "example.com" ["x.txt"]) 0 emptySt).resp.body ∧
    (run exWorld (.hostH "example.com" (.gzipMw (.cacheMw (.staticFiles ["static"]))))
        exPost8080 1
        (run exWorld (.hostH "example.com" (.gzipMw (.cacheMw (.staticFiles ["static"]))))
          (mkReq "example.com" ["x.txt"]) 0 emptySt).st).termCalls = 0 :=
  ⟨rfl, rfl, rfl, rfl, rfl, rfl, by norm_num [cacheTTL],
   (C4_theorem exWorld "example.com" (.staticFiles ["static"])
      (mkReq "example.com" ["x.txt"]) exPost8080 0 1 emptySt rfl rfl rfl rfl rfl rfl
      (by norm_num [cacheTTL])).1,
   (C4_theorem exWorld "example.com" (.staticFiles ["static"])
      (mkReq "example.com" ["x.txt"]) exPost8080 0 1 emptySt rfl rfl rfl rfl rfl rfl
      (by norm_num [cacheTTL])).2⟩

/-! ## Rate limiting (C5, C6) -/

/-- Looking up the limiter just stored finds it. -/
theorem lookup_setLimiter_self (ls : List (String × LimiterState)) (k : String)
    (v : LimiterState) : (setLimiter ls k v).lookup k = some v := by
  simp [setLimiter, List.lookup]

/-- `rateLimitedProxy` on an admitted request: the backend is invoked and
one token is consumed. -/
theorem run_proxy_allowed (w : World) (rid b : String) (r : Request) (t : ℚ)
    (st : ServerState) (h : 1 ≤ advance (st.limiters.lookup rid) t) :
    run w (.proxyH rid b) r t st =
      ⟨w.backend b r,
       { st with limiters :=
           setLimiter st.limiters rid ⟨advance (st.limiters.lookup rid) t - 1, t⟩ },
       none, 1, 1⟩ := by
  simp [run, if_pos h]

/-- `rateLimitedProxy` on a rejected request: 429, no backend call, no
state change. -/
theorem run_proxy_denied (w : World) (rid b : String) (r : Request) (t : ℚ)
    (st : ServerState) (h : ¬ 1 ≤ advance (st.limiters.lookup rid) t) :
    run w (.proxyH rid b) r t st =
      ⟨httpError 429 "429 - Too Many Requests", st, none, 0, 1⟩ := by
  simp [run, if_neg h]

/-- The pure admission trace of one token bucket over a list of request
times. -/
def allowFold : Option LimiterState → List ℚ → List Bool
  | _, [] => []
  | cur, t :: ts => (allowStep cur t).1 :: allowFold (allowStep cur t).2 ts

/-- `allowStep` on an admitted call. -/
theorem allowStep_pos (cur : Option LimiterState) (now : ℚ) (h : 1 ≤ advance cur now) :
    allowStep cur now = (true, some ⟨advance cur now - 1, now⟩) := by
  simp [allowStep, if_pos h]

/-- `allowStep` on a rejected call. -/
theorem allowStep_neg (cur : Option LimiterState) (now : ℚ) (h : ¬ 1 ≤ advance cur now) :
    allowStep cur now = (false, cur) := by
  simp [allowStep, if_neg h]

/-- Running `rateLimitedProxy` over a request sequence is governed by the
pure token-bucket trace of the request times alone: the backend-call
pattern follows the admission decisions, and every rejected request is
answered with the fixed 429 error.  In particular the decisions depend
only on the times — not on source address, host or any other request
field. -/
theorem runSeq_proxy_calls (w : World) (rid b : String) :
    ∀ (rs : List (Request × ℚ)) (st : ServerState),
    ((runSeq w (.proxyH rid b) rs st).map (fun x => x.backendCalls) =
      (allowFold (st.limiters.lookup rid) (rs.map Prod.snd)).map
        (fun d => if d then 1 else 0)) ∧
    (((runSeq w (.proxyH rid b) rs st).filter (fun x => x.backendCalls == 0)).map
        (fun x => x.resp) =
      ((allowFold (st.limiters.lookup rid) (rs.map Prod.snd)).filter (fun d => !d)).map
        (fun _ => httpError 429 "429 - Too Many Requests")) := by
  intro rs
  induction rs with
  | nil => intro st; exact ⟨rfl, rfl⟩
  | cons p rest ih =>
    intro st
    obtain ⟨r, t⟩ := p
    by_cases hd : 1 ≤ advance (st.limiters.lookup rid) t
    · have hstep : allowStep (st.limiters.lookup rid) t =
          (true, some ⟨advance (st.limiters.lookup rid) t - 1, t⟩) := by
        simp [allowStep, if_pos hd]
      have hrun := run_proxy_allowed w rid b r t st hd
      obtain ⟨ih1, ih2⟩ := ih ⟨st.cache, setLimiter st.limiters rid
        ⟨advance (st.limiters.lookup rid) t - 1, t⟩⟩
      rw [lookup_setLimiter_self] at ih1 ih2
      constructor
      · simp only [runSeq, hrun, List.map_cons, allowFold, hstep]
        exact congrArg (fun l => 1 :: l) ih1
      · simp only [runSeq, hrun, List.map_cons, allowFold, hstep, List.filter_cons]
        simpa using ih2
    · have hstep : allowStep (st.limiters.lookup rid) t = (false, st.limiters.lookup rid) := by
        simp [allowStep, if_neg hd]
      have hrun := run_proxy_denied w rid b r t st hd
      obtain ⟨ih1, ih2⟩ := ih st
      constructor
      · simp only [runSeq, hrun, List.map_cons, allowFold, hstep]
        exact congrArg (fun l => 0 :: l) ih1
      · simp only [runSeq, hrun, List.map_cons, allowFold, hstep, List.filter_cons]
        simpa using ih2

/-- A fresh `rate.NewLimiter(1, 5)` bucket admits exactly the first five
of six requests whose times are nondecreasing and all within one second
of the first. -/
theorem allowFold_six (t1 t2 t3 t4 t5 t6 : ℚ)
    (h12 : t1 ≤ t2) (h23 : t2 ≤ t3) (h34 : t3 ≤ t4) (h45 : t4 ≤ t5) (h56 : t5 ≤ t6)
    (hwin : t6 < t1 + 1) :
    allowFold none [t1, t2, t3, t4, t5, t6] = [true, true, true, true, true, false] := by
  set k2 : ℚ := min 5 (4 + (t2 - t1)) - 1 with hk2
  set k3 : ℚ := min 5 (k2 + (t3 - t2)) - 1 with hk3
  set k4 : ℚ := min 5 (k3 + (t4 - t3)) - 1 with hk4
  set k5 : ℚ := min 5 (k4 + (t5 - t4)) - 1 with hk5
  have hub2 : k2 ≤ 3 + (t2 - t1) := by
    have := min_le_right (5 : ℚ) (4 + (t2 - t1))
    rw [hk2]; linarith
  have hlb2 : 3 ≤ k2 := by
    have h4 : (4 : ℚ) ≤ min 5 (4 + (t2 - t1)) := le_min (by norm_num) (by linarith)
    rw [hk2]; linarith
  have hub3 : k3 ≤ 2 + (t3 - t1) := by
    have := min_le_right (5 : ℚ) (k2 + (t3 - t2))
    rw [hk3]; linarith
  have hlb3 : 2 ≤ k3 := by
    have h3 : (3 : ℚ) ≤ min 5 (k2 + (t3 - t2)) := le_min (by norm_num) (by linarith)
    rw [hk3]; linarith
  have hub4 : k4 ≤ 1 + (t4 - t1) := by
    have := min_le_right (5 : ℚ) (k3 + (t4 - t3))
    rw [hk4]; linarith
  have hlb4 : 1 ≤ k4 := by
    have h2 : (2 : ℚ) ≤ min 5 (k3 + (t4 - t3)) := le_min (by norm_num) (by linarith)
    rw [hk4]; linarith
  have hub5 : k5 ≤ t5 - t1 := by
    have := min_le_right (5 : ℚ) (k4 + (t5 - t4))
    rw [hk5]; linarith
  have s1 : allowStep none t1 = (true, some ⟨4, t1⟩) := by
    rw [allowStep_pos none t1 (by norm_num [advance])]
    norm_num [advance]
  have s2 : allowStep (some ⟨4, t1⟩) t2 = (true, some ⟨k2, t2⟩) := by
    have hadv : advance (some ⟨4, t1⟩) t2 = min 5 (4 + (t2 - t1)) := rfl
    rw [allowStep_pos _ _ (by rw [hadv]; exact le_min (by norm_num) (by linarith)), hadv, hk2]
  have s3 : allowStep (some ⟨k2, t2⟩) t3 = (true, some ⟨k3, t3⟩) := by
    have hadv : advance (some ⟨k2, t2⟩) t3 = min 5 (k2 + (t3 - t2)) := rfl
    rw [allowStep_pos _ _ (by rw [hadv]; exact le_min (by norm_num) (by linarith)), hadv, hk3]
  have s4 : allowStep (some ⟨k3, t3⟩) t4 = (true, some ⟨k4, t4⟩) := by
    have hadv : advance (some ⟨k3, t3⟩) t4 = min 5 (k3 + (t4 - t3)) := rfl
    rw [allowStep_pos _ _ (by rw [hadv]; exact le_min (by norm_num) (by linarith)), hadv, hk4]
  have s5 : allowStep (some ⟨k4, t4⟩) t5 = (true, some ⟨k5, t5⟩) := by
    have hadv : advance (some ⟨k4, t4⟩) t5 = min 5 (k4 + (t5 - t4)) := rfl
    rw [allowStep_pos _ _ (by rw [hadv]; exact le_min (by norm_num) (by linarith)), hadv, hk5]
  have s6 : allowStep (some ⟨k5, t5⟩) t6 = (false, some ⟨k5, t5⟩) := by
    have hadv : advance (some ⟨k5, t5⟩) t6 = min 5 (k5 + (t6 - t5)) := rfl
    refine allowStep_neg _ _ ?_
    rw [hadv]
    have hm := min_le_right (5 : ℚ) (k5 + (t6 - t5))
    push_neg
    linarith
  simp only [allowFold, s1, s2, s3, s4, s5, s6]

/-- C5: the route's token bucket (`rate.NewLimiter(1, 5)`) is shared:
for any six requests — whatever their source addresses, hosts or bodies —
arriving at nondecreasing times within one second of the first on a route
with a fresh limiter, exactly the first five are admitted to the backend
and the sixth is rejected with the fixed 429 response. -/
theorem C5_theorem (w : World) (rid b : String) (r1 r2 r3 r4 r5 r6 : Request)
    (t1 t2 t3 t4 t5 t6 : ℚ) (st : ServerState)
    (hfresh : st.limiters.lookup rid = none)
    (h12 : t1 ≤ t2) (h23 : t2 ≤ t3) (h34 : t3 ≤ t4) (h45 : t4 ≤ t5) (h56 : t5 ≤ t6)
    (hwin : t6 < t1 + 1) :
    ((runSeq w (.proxyH rid b)
        [(r1, t1), (r2, t2), (r3, t3), (r4, t4), (r5, t5), (r6, t6)] st).map
      (fun x => x.backendCalls) = [1, 1, 1, 1, 1, 0]) ∧
    (((runSeq w (.proxyH rid b)
        [(r1, t1), (r2, t2), (r3, t3), (r4, t4), (r5, t5), (r6, t6)] st).filter
      (fun x => x.backendCalls == 0)).map (fun x => x.resp) =
      [httpError 429 "429 - Too Many Requests"]) := by
  obtain ⟨h1, h2⟩ := runSeq_proxy_calls w rid b
    [(r1, t1), (r2, t2), (r3, t3), (r4, t4), (r5, t5), (r6, t6)] st
  rw [hfresh] at h1 h2
  rw [show ([(r1, t1), (r2, t2), (r3, t3), (r4, t4), (r5, t5), (r6, t6)].map Prod.snd)
      = [t1, t2, t3, t4, t5, t6] from rfl,
    allowFold_six t1 t2 t3 t4 t5 t6 h12 h23 h34 h45 h56 hwin] at h1 h2
  exact ⟨by simpa using h1, by simpa using h2⟩

/-- Witness for `C5_theorem` at a concrete input: six simultaneous
requests from two different source addresses on the `/api` route. -/
theorem C5_witness :
    (emptySt.limiters.lookup "/api" = none) ∧ ((0 : ℚ) < 0 + 1) ∧
    ((runSeq exWorld (.proxyH "/api" "http://localhost:3000")
        [(mkReq "example.com" ["api"], 0), (mkReq "example.com" ["api"], 0),
         (mkReq "example.com" ["api"], 0), (mkPost "example.com" ["api"], 0),
         (mkPost "example.com" ["api"], 0), (mkPost "example.com" ["api"], 0)]
        emptySt).map (fun x => x.backendCalls) = [1, 1, 1, 1, 1, 0]) ∧
    (((runSeq exWorld (.proxyH "/api" "http://localhost:3000")
        [(mkReq "example.com" ["api"], 0), (mkReq "example.com" ["api"], 0),
         (mkReq "example.com" ["api"], 0), (mkPost "example.com" ["api"], 0),
         (mkPost "example.com" ["api"], 0), (mkPost "example.com" ["api"], 0)]
        emptySt).filter (fun x => x.backendCalls == 0)).map (fun x => x.resp) =
      [httpError 429 "429 - Too Many Requests"]) :=
  ⟨rfl, by norm_num,
   (C5_theorem exWorld "/api" "http://localhost:3000"
      (mkReq "example.com" ["api"]) (mkReq "example.com" ["api"])
      (mkReq "example.com" ["api"]) (mkPost "example.com" ["api"])
      (mkPost "example.com" ["api"]) (mkPost "example.com" ["api"])
      0 0 0 0 0 0 emptySt rfl le_rfl le_rfl le_rfl le_rfl le_rfl (by norm_num)).1,
   (C5_theorem exWorld "/api" "http://localhost:3000"
      (mkReq "example.com" ["api"]) (mkReq "example.com" ["api"])
      (mkReq "example.com" ["api"]) (mkPost "example.com" ["api"])
      (mkPost "example.com" ["api"]) (mkPost "example.com" ["api"])
      0 0 0 0 0 0 emptySt rfl le_rfl le_rfl le_rfl le_rfl le_rfl (by norm_num)).2⟩

/-! ## Mux registration structure -/

/-- A successful registration appends the entry; the pattern was neither
empty nor already taken. -/
theorem register_ok {m : List MuxEntry} {pat : List String} {h : Handler}
    {m' : List MuxEntry} (hok : register m pat h = .ok m') :
    m' = m ++ [⟨pat, h⟩] ∧ (∀ e ∈ m, e.pattern ≠ pat) ∧ pat ≠ [] := by
  unfold register at hok
  split at hok
  · cases hok
  · rename_i hne
    split at hok
    · cases hok
    · rename_i hany
      cases hok
      refine ⟨rfl, ?_, ?_⟩
      · intro e hmem heq
        exact hany (List.any_eq_true.mpr ⟨e, hmem, by simp [heq]⟩)
      · intro hempty
        exact hne (by simp [hempty])

/-- What a successful `registerRoutes` produces: old entries persist,
each route's host-checked rate-limited proxy handler is present, and
every new entry is such a handler for this domain. -/
theorem registerRoutes_ok (domain : String) :
    ∀ (routes : List ProxyRoute) (m m' : List MuxEntry),
    registerRoutes domain routes m = .ok m' →
    (∀ e ∈ m, e ∈ m') ∧
    (∀ route ∈ routes,
      (⟨parsePat route.path, .hostH domain (.proxyH route.path route.backend)⟩ : MuxEntry)
        ∈ m') ∧
    (∀ e ∈ m', e ∈ m ∨ ∃ inner, e.handler = .hostH domain inner) := by
  intro routes
  induction routes with
  | nil =>
    intro m m' hok
    cases hok
    exact ⟨fun _ he => he, by simp, fun e he => Or.inl he⟩
  | cons route rest ih =>
    intro m m' hok
    unfold registerRoutes at hok
    split at hok
    · cases hok
    · rename_i m₁ hreg
      obtain ⟨hm1, _, _⟩ := register_ok hreg
      obtain ⟨hmono, hmem, hshape⟩ := ih m₁ m' hok
      subst hm1
      refine ⟨?_, ?_, ?_⟩
      · intro e he
        exact hmono e (by simp [he])
      · intro r hr
        rcases List.mem_cons.mp hr with hr | hr
        · subst hr
          exact hmono _ (by simp)
        · exact hmem r hr
      · intro e he
        rcases hshape e he with hin | hh
        · rcases List.mem_append.mp hin with hin | hin
          · exact Or.inl hin
          · simp only [List.mem_singleton] at hin
            exact Or.inr ⟨.proxyH route.path route.backend, by rw [hin]⟩
        · exact Or.inr hh

/-- What a successful `registerDomain` produces. -/
theorem registerDomain_ok (d : DomainConfig) (m m' : List MuxEntry)
    (hok : registerDomain d m = .ok m') :
    (∀ e ∈ m, e ∈ m') ∧
    (∀ e ∈ m', e ∈ m ∨ ∃ inner, e.handler = .hostH d.domain inner) ∧
    (d.staticDir ≠ "" → (⟨[""], staticChain d.domain d.staticDir⟩ : MuxEntry) ∈ m') ∧
    (∀ route ∈ d.proxyRoutes,
      (⟨parsePat route.path, .hostH d.domain (.proxyH route.path route.backend)⟩ : MuxEntry)
        ∈ m') := by
  unfold registerDomain at hok
  split at hok
  · cases hok
  · rename_i m₁ hm₁
    obtain ⟨hmono, hmem, hshape⟩ := registerRoutes_ok d.domain d.proxyRoutes m₁ m' hok
    by_cases hsd : (d.staticDir != "") = true
    · rw [if_pos hsd] at hm₁
      obtain ⟨heq, _, _⟩ := register_ok hm₁
      subst heq
      refine ⟨fun e he => hmono e (by simp [he]), ?_, fun _ => hmono _ (by simp), hmem⟩
      intro e he
      rcases hshape e he with hin | hh
      · rcases List.mem_append.mp hin with hin | hin
        · exact Or.inl hin
        · simp only [List.mem_singleton] at hin
          refine Or.inr ⟨.gzipMw (.cacheMw (.staticFiles (segsOfRel d.staticDir))), ?_⟩
          rw [hin]
          rfl
      · exact Or.inr hh
    · rw [if_neg hsd] at hm₁
      cases hm₁
      exact ⟨hmono, hshape, fun hne => absurd (by simpa using hne) hsd, hmem⟩

/-- What a successful `registerDomains` produces. -/
theorem registerDomains_ok : ∀ (ds : List DomainConfig) (m m' : List MuxEntry),
    registerDomains ds m = .ok m' →
    (∀ e ∈ m, e ∈ m') ∧
    (∀ e ∈ m', e ∈ m ∨ ∃ d ∈ ds, ∃ inner, e.handler = .hostH d.domain inner) ∧
    (∀ d ∈ ds, ∀ route ∈ d.proxyRoutes,
      (⟨parsePat route.path, .hostH d.domain (.proxyH route.path route.backend)⟩ : MuxEntry)
        ∈ m') := by
  intro ds
  induction ds with
  | nil =>
    intro m m' hok
    cases hok
    exact ⟨fun _ he => he, fun e he => Or.inl he, by simp⟩
  | cons d rest ih =>
    intro m m' hok
    unfold registerDomains at hok
    split at hok
    · cases hok
    · rename_i m₁ hd
      obtain ⟨hmono1, hshape1, _, hroutes1⟩ := registerDomain_ok d m m₁ hd
      obtain ⟨hmono2, hshape2, hroutes2⟩ := ih m₁ m' hok
      refine ⟨fun e he => hmono2 e (hmono1 e he), ?_, ?_⟩
      · intro e he
        rcases hshape2 e he with h1 | ⟨d', hd', inner, hh⟩
        · rcases hshape1 e h1 with h2 | ⟨inner, hh⟩
          · exact Or.inl h2
          · exact Or.inr ⟨d, by simp, inner, hh⟩
        · exact Or.inr ⟨d', by simp [hd'], inner, hh⟩
      · intro d' hd' route hr
        rcases List.mem_cons.mp hd' with hd' | hd'
        · subst hd'
          exact hmono2 _ (hroutes1 route hr)
        · exact hroutes2 d' hd' route hr

/-- Dissecting a successful `buildMux` when domains are configured: the
health entry is registered last and no earlier entry has its pattern. -/
theorem buildMux_ok_parts (c : Config) (m : List MuxEntry) (hok : buildMux c = .ok m)
    (hne : c.domains ≠ []) :
    ∃ m₀, m = m₀ ++ [⟨["health"], Handler.health⟩] ∧ (∀ e ∈ m₀, e.pattern ≠ ["health"]) ∧
      registerDomains c.domains [] = .ok m₀ := by
  unfold buildMux at hok
  split at hok
  · cases hok
  · rename_i m₀ hreg
    rw [if_neg (by simpa [List.isEmpty_iff] using hne)] at hok
    obtain ⟨heq, hall, _⟩ := register_ok hok
    exact ⟨m₀, heq, hall, hreg⟩

/-- With domains configured, every mux entry is either the health entry
or a host-checked handler for one of the configured domains. -/
theorem buildMux_entry_shape (c : Config) (m : List MuxEntry) (hok : buildMux c = .ok m)
    (hne : c.domains ≠ []) :
    ∀ e ∈ m, e = ⟨["health"], Handler.health⟩ ∨
      ∃ d ∈ c.domains, ∃ inner, e.handler = .hostH d.domain inner := by
  obtain ⟨m₀, heq, _, hreg⟩ := buildMux_ok_parts c m hok hne
  obtain ⟨_, hshape, _⟩ := registerDomains_ok c.domains [] m₀ hreg
  subst heq
  intro e he
  rcases List.mem_append.mp he with h | h
  · rcases hshape e h with h0 | hh
    · simp at h0
    · exact Or.inr hh
  · simp only [List.mem_singleton] at h
    exact Or.inl h

/-! ## Mux selection -/

/-- `selectStep` with an empty accumulator takes a matching entry. -/
theorem selectStep_none (path : List String) (e : MuxEntry)
    (h : patMatch e.pattern path = true) : selectStep path none e = some e := by
  simp [selectStep, h]

/-- `selectStep` ignores a non-matching entry. -/
theorem selectStep_skip (path : List String) (acc : Option MuxEntry) (e : MuxEntry)
    (h : patMatch e.pattern path = false) : selectStep path acc e = acc := by
  simp [selectStep, h]

/-- `selectStep` upgrades to a strictly more specific matching entry. -/
theorem selectStep_some_lt (path : List String) (b e : MuxEntry)
    (h : patMatch e.pattern path = true) (hr : patRank b.pattern < patRank e.pattern) :
    selectStep path (some b) e = some e := by
  simp [selectStep, h, hr]

/-- `selectStep` keeps the held entry against one that is not strictly
more specific. -/
theorem selectStep_some_ge (path : List String) (b e : MuxEntry)
    (h : patMatch e.pattern path = true) (hr : ¬ patRank b.pattern < patRank e.pattern) :
    selectStep path (some b) e = some b := by
  simp [selectStep, h, hr]

/-- Inversion: a step result is the old accumulator or the new entry. -/
theorem selectStep_eq_some (path : List String) (acc : Option MuxEntry) (x e : MuxEntry)
    (h : selectStep path acc x = some e) :
    acc = some e ∨ (e = x ∧ patMatch x.pattern path = true) := by
  by_cases hx : patMatch x.pattern path = true
  · cases acc with
    | none =>
      rw [selectStep_none _ _ hx] at h
      cases h
      exact Or.inr ⟨rfl, hx⟩
    | some b =>
      by_cases hr : patRank b.pattern < patRank x.pattern
      · rw [selectStep_some_lt _ _ _ hx hr] at h
        cases h
        exact Or.inr ⟨rfl, hx⟩
      · rw [selectStep_some_ge _ _ _ hx hr] at h
        exact Or.inl h
  · rw [selectStep_skip _ _ _ (by simpa using hx)] at h
    exact Or.inl h

/-- Whatever the selection fold returns either was the accumulator or is
a matching registered entry. -/
theorem selectStep_fold_mem (path : List String) :
    ∀ (m : List MuxEntry) (acc : Option MuxEntry) (e : MuxEntry),
    List.foldl (selectStep path) acc m = some e →
    acc = some e ∨ (e ∈ m ∧ patMatch e.pattern path = true) := by
  intro m
  induction m with
  | nil => intro acc e h; exact Or.inl h
  | cons x rest ih =>
    intro acc e h
    rw [List.foldl_cons] at h
    rcases ih _ e h with hacc | ⟨hmem, hpm⟩
    · rcases selectStep_eq_some path acc x e hacc with h0 | ⟨rfl, hx⟩
      · exact Or.inl h0
      · exact Or.inr ⟨by simp, hx⟩
    · exact Or.inr ⟨by simp [hmem], hpm⟩

/-- A selected entry is a matching registered entry. -/
theorem selectEntry_some (m : List MuxEntry) (path : List String) (e : MuxEntry)
    (h : selectEntry m path = some e) : e ∈ m ∧ patMatch e.pattern path = true := by
  rcases selectStep_fold_mem path m none e h with h0 | h1
  · cases h0
  · exact h1

/-- Once the strictly best matching entry is the accumulator, the fold
keeps it. -/
theorem selectStep_fold_keep (path : List String) (e : MuxEntry) :
    ∀ m : List MuxEntry,
    (∀ e' ∈ m, patMatch e'.pattern path = true → e' ≠ e →
      patRank e'.pattern < patRank e.pattern) →
    List.foldl (selectStep path) (some e) m = some e := by
  intro m
  induction m with
  | nil => intro _; rfl
  | cons x rest ih =>
    intro hlt
    rw [List.foldl_cons]
    have hx : selectStep path (some e) x = some e := by
      by_cases hpm : patMatch x.pattern path = true
      · by_cases hxe : x = e
        · subst hxe
          exact selectStep_some_ge _ _ _ hpm (lt_irrefl _)
        · exact selectStep_some_ge _ _ _ hpm (by
            have := hlt x (by simp) hpm hxe
            omega)
      · exact selectStep_skip _ _ _ (by simpa using hpm)
    rw [hx]
    exact ih (fun e' he' => hlt e' (by simp [he']))

/-- The fold reaches the strictly best matching entry from any dominated
accumulator. -/
theorem selectStep_fold_reach (path : List String) (e : MuxEntry) :
    ∀ (m : List MuxEntry) (acc : Option MuxEntry),
    e ∈ m → patMatch e.pattern path = true →
    (∀ e' ∈ m, patMatch e'.pattern path = true → e' ≠ e →
      patRank e'.pattern < patRank e.pattern) →
    (acc = none ∨ acc = some e ∨
      ∃ b, acc = some b ∧ patRank b.pattern < patRank e.pattern) →
    List.foldl (selectStep path) acc m = some e := by
  intro m
  induction m with
  | nil => intro acc hmem; cases hmem
  | cons x rest ih =>
    intro acc hmem hpm hlt hacc
    rw [List.foldl_cons]
    have hrest : ∀ e' ∈ rest, patMatch e'.pattern path = true → e' ≠ e →
        patRank e'.pattern < patRank e.pattern :=
      fun e' he' => hlt e' (by simp [he'])
    by_cases hxe : x = e
    · subst hxe
      have hx : selectStep path acc x = some x := by
        rcases hacc with h0 | h0 | ⟨b, h0, hblt⟩
        · rw [h0]
          exact selectStep_none _ _ hpm
        · rw [h0]
          exact selectStep_some_ge _ _ _ hpm (lt_irrefl _)
        · rw [h0]
          exact selectStep_some_lt _ _ _ hpm hblt
      rw [hx]
      exact selectStep_fold_keep path x rest hrest
    · have hmem' : e ∈ rest := by
        rcases List.mem_cons.mp hmem with h0 | h0
        · exact absurd h0.symm hxe
        · exact h0
      by_cases hx : patMatch x.pattern path = true
      · have hxlt := hlt x (by simp) hx hxe
        rcases hacc with h0 | h0 | ⟨b, h0, hblt⟩
        · rw [h0, selectStep_none _ _ hx]
          exact ih (some x) hmem' hpm hrest (Or.inr (Or.inr ⟨x, rfl, hxlt⟩))
        · rw [h0, selectStep_some_ge _ _ _ hx (by omega)]
          exact ih (some e) hmem' hpm hrest (Or.inr (Or.inl rfl))
        · by_cases hbx : patRank b.pattern < patRank x.pattern
          · rw [h0, selectStep_some_lt _ _ _ hx hbx]
            exact ih (some x) hmem' hpm hrest (Or.inr (Or.inr ⟨x, rfl, hxlt⟩))
          · rw [h0, selectStep_some_ge _ _ _ hx hbx]
            exact ih (some b) hmem' hpm hrest (Or.inr (Or.inr ⟨b, rfl, hblt⟩))
      · rw [selectStep_skip _ _ _ (by simpa using hx)]
        exact ih acc hmem' hpm hrest hacc

/-- `ServeMux` selection returns the strictly most specific matching
entry. -/
theorem selectEntry_eq (m : List MuxEntry) (path : List String) (e : MuxEntry)
    (hmem : e ∈ m) (hpm : patMatch e.pattern path = true)
    (hmax : ∀ e' ∈ m, patMatch e'.pattern path = true → e' ≠ e →
      patRank e'.pattern < patRank e.pattern) :
    selectEntry m path = some e :=
  selectStep_fold_reach path e m none hmem hpm hmax (Or.inl rfl)


/-- `ServeMux` dispatch on a canonical path runs the selected handler. -/
theorem dispatch_run (w : World) (m : List MuxEntry) (r : Request) (now : ℚ)
    (st : ServerState) (e : MuxEntry) (hclean : cleanPathSegs r.rawSegs = r.rawSegs)
    (hsel : selectEntry m r.rawSegs = some e) :
    dispatch w m r now st = run w e.handler r now st := by
  simp [dispatch, hclean, hsel]

/-! ## Pattern analysis for singleton paths -/

/-- Boolean prefixes of a one-element list. -/
theorem isPrefixOf_singleton {a : String} {l : List String}
    (h : l.isPrefixOf [a] = true) : l = [] ∨ l = [a] := by
  cases l with
  | nil => exact Or.inl rfl
  | cons x xs =>
    cases xs with
    | nil =>
      right
      have hx : x = a := by simpa [List.isPrefixOf] using h
      rw [hx]
    | cons y ys =>
      exfalso
      simp [List.isPrefixOf] at h

/-- The only patterns matching a one-segment path `/a` (with `a`
nonempty) are the identical pattern and the root pattern `"/"`. -/
theorem patMatch_singleton (a : String) (pat : List String)
    (h : patMatch pat [a] = true) : pat = [a] ∨ pat = [""] := by
  unfold patMatch at h
  split at h
  · rename_i htr
    rw [Bool.and_eq_true] at h
    obtain ⟨hpre, hne⟩ := h
    rcases isPrefixOf_singleton hpre with h0 | h0
    · right
      cases pat with
      | nil => simp at htr
      | cons x xs =>
        cases xs with
        | nil =>
          have hx : x = "" := by simpa using htr
          rw [hx]
        | cons y ys =>
          exfalso
          simp [List.dropLast] at h0
    · exfalso
      rw [h0] at hne
      simp at hne
  · left
    simpa using h

/-! ## Claims C6, C7, C9 -/

/-- C6 (amended): the rate-limiting stage is never skipped.  The
configuration has no rate-limit field at all, and `main` registers every
configured proxy route wrapped in `rateLimitedProxy` with the fixed
`rate.NewLimiter(1, 5)` — so every proxy route of every domain of a
successfully built mux carries the shared limiter. -/
theorem C6_theorem (c : Config) (m : List MuxEntry) (d : DomainConfig) (route : ProxyRoute)
    (hok : buildMux c = .ok m) (hd : d ∈ c.domains) (hr : route ∈ d.proxyRoutes) :
    (⟨parsePat route.path, .hostH d.domain (.proxyH route.path route.backend)⟩ : MuxEntry)
      ∈ m := by
  have hne : c.domains ≠ [] := by
    intro h0
    rw [h0] at hd
    cases hd
  obtain ⟨m₀, heq, _, hreg⟩ := buildMux_ok_parts c m hok hne
  obtain ⟨_, _, hroutes⟩ := registerDomains_ok c.domains [] m₀ hreg
  subst heq
  exact List.mem_append.mpr (Or.inl (hroutes d hd route hr))

/-- Witness for `C6_theorem` at the example configuration. -/
theorem C6_witness :
    buildMux exCfg = .ok exMux ∧
    ({ domain := "example.com", staticDir := "static",
       proxyRoutes := [{ path := "/api", backend := "http://localhost:3000" }] } : DomainConfig)
      ∈ exCfg.domains ∧
    ({ path := "/api", backend := "http://localhost:3000" } : ProxyRoute) ∈
      ({ domain := "example.com", staticDir := "static",
         proxyRoutes := [{ path := "/api", backend := "http://localhost:3000" }] }
        : DomainConfig).proxyRoutes ∧
    (⟨parsePat "/api", .hostH "example.com" (.proxyH "/api" "http://localhost:3000")⟩
      : MuxEntry) ∈ exMux :=
  ⟨rfl, by simp [exCfg], by simp,
   C6_theorem exCfg exMux
     { domain := "example.com", staticDir := "static",
       proxyRoutes := [{ path := "/api", backend := "http://localhost:3000" }] }
     { path := "/api", backend := "http://localhost:3000" }
     rfl (by simp [exCfg]) (by simp)⟩

/-- C6 counterexample: the example `/api` route — whose configuration
carries no rate limit (no such field exists) — still rejects the sixth of
six immediate requests with 429: the rate-limiting stage was not skipped. -/
theorem C6_counterexample :
    ((dispatchSeq exWorld exMux
        [(mkReq "example.com" ["api"], 0), (mkReq "example.com" ["api"], 0),
         (mkReq "example.com" ["api"], 0), (mkReq "example.com" ["api"], 0),
         (mkReq "example.com" ["api"], 0), (mkReq "example.com" ["api"], 0)]
        emptySt).map (fun x => x.backendCalls) = [1, 1, 1, 1, 1, 0]) ∧
    (((dispatchSeq exWorld exMux
        [(mkReq "example.com" ["api"], 0), (mkReq "example.com" ["api"], 0),
         (mkReq "example.com" ["api"], 0), (mkReq "example.com" ["api"], 0),
         (mkReq "example.com" ["api"], 0), (mkReq "example.com" ["api"], 0)]
        emptySt).filter (fun x => x.backendCalls == 0)).map (fun x => x.resp) =
      [httpError 429 "429 - Too Many Requests"]) := by
  have hseq : dispatchSeq exWorld exMux
      [(mkReq "example.com" ["api"], 0), (mkReq "example.com" ["api"], 0),
       (mkReq "example.com" ["api"], 0), (mkReq "example.com" ["api"], 0),
       (mkReq "example.com" ["api"], 0), (mkReq "example.com" ["api"], 0)] emptySt =
      runSeq exWorld (.proxyH "/api" "http://localhost:3000")
      [(mkReq "example.com" ["api"], 0), (mkReq "example.com" ["api"], 0),
       (mkReq "example.com" ["api"], 0), (mkReq "example.com" ["api"], 0),
       (mkReq "example.com" ["api"], 0), (mkReq "example.com" ["api"], 0)] emptySt := rfl
  obtain ⟨h1, h2⟩ := runSeq_proxy_calls exWorld "/api" "http://localhost:3000"
    [(mkReq "example.com" ["api"], 0), (mkReq "example.com" ["api"], 0),
     (mkReq "example.com" ["api"], 0), (mkReq "example.com" ["api"], 0),
     (mkReq "example.com" ["api"], 0), (mkReq "example.com" ["api"], 0)] emptySt
  rw [show emptySt.limiters.lookup "/api" = none from rfl] at h1 h2
  rw [show ([(mkReq "example.com" ["api"], (0 : ℚ)), (mkReq "example.com" ["api"], 0),
       (mkReq "example.com" ["api"], 0), (mkReq "example.com" ["api"], 0),
       (mkReq "example.com" ["api"], 0), (mkReq "example.com" ["api"], 0)].map Prod.snd)
      = [0, 0, 0, 0, 0, 0] from rfl,
    allowFold_six 0 0 0 0 0 0 le_rfl le_rfl le_rfl le_rfl le_rfl (by norm_num)] at h1 h2
  rw [hseq]
  exact ⟨by simpa using h1, by simpa using h2⟩

/-- C7 (amended): with at least one domain configured, a request whose
Host matches no configured domain is answered 404 (or a 301 path
canonicalisation redirect), never the welcome page, never a static file
and never a backend response — except that `/health` is served to every
host (see the counterexample). -/
theorem C7_theorem (c : Config) (m : List MuxEntry) (w : World) (r : Request) (now : ℚ)
    (st : ServerState) (hne : c.domains ≠ []) (hok : buildMux c = .ok m)
    (hhost : ∀ d ∈ c.domains, hostMatches d.domain r.host = false)
    (hpath : r.rawSegs ≠ ["health"]) :
    ((dispatch w m r now st).resp.status = 404 ∨ (dispatch w m r now st).resp.status = 301) ∧
    (dispatch w m r now st).resp.body ≠ welcomeBody ∧
    (dispatch w m r now st).servedFile = none ∧
    (dispatch w m r now st).backendCalls = 0 := by
  by_cases hclean : cleanPathSegs r.rawSegs = r.rawSegs
  · cases hsel : selectEntry m r.rawSegs with
    | some e =>
      have hrun := dispatch_run w m r now st e hclean hsel
      rcases buildMux_entry_shape c m hok hne e (selectEntry_some m _ e hsel).1 with
        heq | ⟨d, hd, inner, hh⟩
      · exfalso
        have hpm := (selectEntry_some m _ e hsel).2
        rw [heq] at hpm
        exact hpath ((patMatch_exact _ _ (by decide)).mp hpm).symm
      · have h404 : run w e.handler r now st =
            ⟨⟨404, [], "404 - Not Found"⟩, st, none, 0, 0⟩ := by
          rw [hh]
          simp [run, hhost d hd]
        rw [hrun, h404]
        exact ⟨Or.inl rfl, (by decide : ("404 - Not Found" : String) ≠ welcomeBody), rfl, rfl⟩
    | none =>
      by_cases hcond : (r.rawSegs.getLast? != some "" &&
          (selectEntry m (r.rawSegs ++ [""])).isSome) = true
      · have hd : dispatch w m r now st =
            ⟨redirectResp (pathStr (r.rawSegs ++ [""]) ++ querySuffix r), st, none, 0, 0⟩ := by
          simp [dispatch, hclean, hsel, hcond]
        rw [hd]
        exact ⟨Or.inr rfl, (by decide : ("" : String) ≠ welcomeBody), rfl, rfl⟩
      · have hcb : (r.rawSegs.getLast? != some "" &&
            (selectEntry m (r.rawSegs ++ [""])).isSome) = false := by
          simpa using hcond
        have hd : dispatch w m r now st =
            ⟨httpError 404 "404 page not found", st, none, 0, 0⟩ := by
          simp [dispatch, hclean, hsel, hcb]
        rw [hd]
        exact ⟨Or.inl rfl,
          (by decide : ("404 page not found" ++ "\n" : String) ≠ welcomeBody), rfl, rfl⟩
  · have hb : (cleanPathSegs r.rawSegs != r.rawSegs) = true := by
      simpa using hclean
    have hd : dispatch w m r now st =
        ⟨redirectResp (pathStr (cleanPathSegs r.rawSegs) ++ querySuffix r), st, none, 0, 0⟩ := by
      simp [dispatch, hb]
    rw [hd]
    exact ⟨Or.inr rfl, (by decide : ("" : String) ≠ welcomeBody), rfl, rfl⟩

/-- C7 counterexample: with the example configuration, a request from an
unmatched host for `/health` is answered 200 `OK` — not 404 — because the
health endpoint is registered without the host check. -/
theorem C7_counterexample :
    exCfg.domains ≠ [] ∧
    hostMatches "example.com" "evil.com" = false ∧
    (dispatch exWorld exMux (mkReq "evil.com" ["health"]) 0 emptySt).resp =
      ⟨200, [], "OK"⟩ ∧
    (dispatch exWorld exMux (mkReq "evil.com" ["health"]) 0 emptySt).resp.status ≠ 404 :=
  ⟨by decide, by decide, rfl, by decide⟩

/-- Witness for `C7_theorem` at a concrete input: an unmatched host
requesting `/nothere` on the example configuration gets a 404 that is
neither the welcome page nor any file or backend content. -/
theorem C7_witness :
    exCfg.domains ≠ [] ∧ buildMux exCfg = .ok exMux ∧
    (∀ d ∈ exCfg.domains, hostMatches d.domain "evil.com" = false) ∧
    ((mkReq "evil.com" ["nothere"]).rawSegs ≠ ["health"]) ∧
    ((dispatch exWorld exMux (mkReq "evil.com" ["nothere"]) 0 emptySt).resp.status = 404 ∨
      (dispatch exWorld exMux (mkReq "evil.com" ["nothere"]) 0 emptySt).resp.status = 301) ∧
    (dispatch exWorld exMux (mkReq "evil.com" ["nothere"]) 0 emptySt).resp.body ≠
      welcomeBody ∧
    (dispatch exWorld exMux (mkReq "evil.com" ["nothere"]) 0 emptySt).servedFile = none ∧
    (dispatch exWorld exMux (mkReq "evil.com" ["nothere"]) 0 emptySt).backendCalls = 0 := by
  obtain ⟨h1, h2, h3, h4⟩ := C7_theorem exCfg exMux exWorld (mkReq "evil.com" ["nothere"]) 0
    emptySt (by decide) rfl (by decide) (by decide)
  exact ⟨by decide, rfl, by decide, by decide, h1, h2, h3, h4⟩

/-- C9: with at least one domain configured, every request for `/health`
(any method, any host) is answered 200 with the fixed body `OK`; with no
domain configured the mux holds only the welcome entry, and `/health`
receives the welcome page instead. -/
theorem C9_theorem (c : Config) (m : List MuxEntry) (w : World) (r : Request) (now : ℚ)
    (st : ServerState) :
    (c.domains ≠ [] → buildMux c = .ok m → r.rawSegs = ["health"] →
      (dispatch w m r now st).resp = ⟨200, [], "OK"⟩) ∧
    (c.domains = [] → r.rawSegs = ["health"] →
      buildMux c = .ok [⟨[""], Handler.welcome⟩] ∧
      (dispatch w [⟨[""], Handler.welcome⟩] r now st).resp =
        ⟨200, [("Content-Type", "text/html")], welcomeBody⟩) := by
  constructor
  · intro hne hok hr
    obtain ⟨m₀, heq, hnohealth, _⟩ := buildMux_ok_parts c m hok hne
    have hmem : (⟨["health"], Handler.health⟩ : MuxEntry) ∈ m := by
      rw [heq]
      simp
    have hsel : selectEntry m r.rawSegs = some ⟨["health"], Handler.health⟩ := by
      rw [hr]
      refine selectEntry_eq m ["health"] _ hmem (by decide) ?_
      intro e' he' hpm hne'
      rcases patMatch_singleton "health" e'.pattern hpm with h0 | h0
      · exfalso
        rw [heq] at he'
        rcases List.mem_append.mp he' with h1 | h1
        · exact hnohealth e' h1 h0
        · simp only [List.mem_singleton] at h1
          exact hne' h1
      · rw [h0]
        decide
    rw [dispatch_run w m r now st _ (by rw [hr]; rfl) hsel]
    rfl
  · intro hdom hr
    have hbuild : buildMux c = .ok [⟨[""], Handler.welcome⟩] := by
      unfold buildMux registerDomains
      rw [hdom]
      rfl
    refine ⟨hbuild, ?_⟩
    have hsel : selectEntry [⟨[""], Handler.welcome⟩] r.rawSegs =
        some ⟨[""], Handler.welcome⟩ := by
      rw [hr]
      rfl
    rw [dispatch_run w _ r now st _ (by rw [hr]; rfl) hsel]
    rfl

/-- Witness for `C9_theorem`: the example configuration serves `/health`
as 200 `OK`; the empty configuration serves the welcome page there. -/
theorem C9_witness :
    (exCfg.domains ≠ [] ∧ buildMux exCfg = .ok exMux ∧
      (dispatch exWorld exMux (mkReq "example.com" ["health"]) 0 emptySt).resp =
        ⟨200, [], "OK"⟩) ∧
    (exCfgEmpty.domains = [] ∧
      buildMux exCfgEmpty = .ok [⟨[""], Handler.welcome⟩] ∧
      (dispatch exWorld [⟨[""], Handler.welcome⟩] (mkReq "anyhost" ["health"]) 0
        emptySt).resp = ⟨200, [("Content-Type", "text/html")], welcomeBody⟩) :=
  ⟨⟨by decide, rfl,
    (C9_theorem exCfg exMux exWorld (mkReq "example.com" ["health"]) 0 emptySt).1
      (by decide) rfl rfl⟩,
   ⟨rfl,
    ((C9_theorem exCfgEmpty exMux exWorld (mkReq "anyhost" ["health"]) 0 emptySt).2
      rfl rfl).1,
    ((C9_theorem exCfgEmpty exMux exWorld (mkReq "anyhost" ["health"]) 0 emptySt).2
      rfl rfl).2⟩⟩

/-! ## Claim C8: reload keeps the old configuration on failure -/

/-- C8: when loading the new configuration fails, `reloadConfig` leaves
the stored configuration unchanged and logs the failure for the reload
initiator; a successful load installs the new configuration. -/
theorem C8_theorem (current : Config) (e : String) (newConfig : Config) :
    (reloadConfig current (.error e)).1 = current ∧
    ("Failed to reload configurations: " ++ e) ∈ (reloadConfig current (.error e)).2 ∧
    (reloadConfig current (.ok newConfig)).1 = newConfig :=
  ⟨rfl, by simp [reloadConfig], rfl⟩

/-! ## Claim C10: duplicate root registration panics -/

/-- Registering the static chain over a mux that already holds the root
pattern `"/"` panics (duplicate registration). -/
theorem registerDomain_err_of_static (d : DomainConfig) (m : List MuxEntry)
    (hroot : ∃ e ∈ m, e.pattern = [""]) (hsd : d.staticDir ≠ "") :
    ∃ msg, registerDomain d m = .error msg := by
  have hreg : register m [""] (staticChain d.domain d.staticDir) =
      .error ("conflicting pattern " ++ pathStr [""]) := by
    unfold register
    rw [if_neg (by decide)]
    rw [if_pos ?hany]
    case hany =>
      obtain ⟨e, hmem, hpat⟩ := hroot
      exact List.any_eq_true.mpr ⟨e, hmem, by simp [hpat]⟩
  refine ⟨"conflicting pattern " ++ pathStr [""], ?_⟩
  unfold registerDomain
  rw [if_pos (by simpa using hsd), hreg]

/-- A domains list containing a static domain cannot be registered over a
mux that already holds the root pattern. -/
theorem registerDomains_err_root : ∀ (ds : List DomainConfig) (m : List MuxEntry),
    (∃ e ∈ m, e.pattern = [""]) → (∃ d ∈ ds, d.staticDir ≠ "") →
    ∃ msg, registerDomains ds m = .error msg := by
  intro ds
  induction ds with
  | nil =>
    intro m _ hex
    obtain ⟨d, hd, _⟩ := hex
    cases hd
  | cons d rest ih =>
    intro m hroot hex
    by_cases hsd : d.staticDir ≠ ""
    · obtain ⟨msg, herr⟩ := registerDomain_err_of_static d m hroot hsd
      refine ⟨msg, ?_⟩
      unfold registerDomains
      rw [herr]
    · cases hdm : registerDomain d m with
      | error msg =>
        refine ⟨msg, ?_⟩
        unfold registerDomains
        rw [hdm]
      | ok m₁ =>
        have hmono := (registerDomain_ok d m m₁ hdm).1
        obtain ⟨e, hmem, hpat⟩ := hroot
        have hex' : ∃ d' ∈ rest, d'.staticDir ≠ "" := by
          rcases hex with ⟨d', hd', hsd'⟩
          rcases List.mem_cons.mp hd' with h0 | h0
          · exact absurd (h0 ▸ hsd') hsd
          · exact ⟨d', h0, hsd'⟩
        obtain ⟨msg, herr⟩ := ih m₁ ⟨e, hmono e hmem, hpat⟩ hex'
        refine ⟨msg, ?_⟩
        unfold registerDomains
        rw [hdm]
        exact herr

/-- Two or more static domains always make domain registration fail. -/
theorem registerDomains_err_two : ∀ (ds : List DomainConfig) (m : List MuxEntry),
    2 ≤ (ds.filter (fun d => d.staticDir != "")).length →
    ∃ msg, registerDomains ds m = .error msg := by
  intro ds
  induction ds with
  | nil =>
    intro m h2
    simp at h2
  | cons d rest ih =>
    intro m h2
    by_cases hsd : (d.staticDir != "") = true
    · have hrest : ∃ d' ∈ rest, d'.staticDir ≠ "" := by
        rw [List.filter_cons, if_pos hsd] at h2
        have hlen : 0 < (rest.filter (fun d => d.staticDir != "")).length := by
          simp at h2
          omega
        obtain ⟨d', hd'⟩ := List.exists_mem_of_length_pos hlen
        have := List.mem_filter.mp hd'
        exact ⟨d', this.1, by simpa using this.2⟩
      cases hdm : registerDomain d m with
      | error msg =>
        refine ⟨msg, ?_⟩
        unfold registerDomains
        rw [hdm]
      | ok m₁ =>
        have hroot : (⟨[""], staticChain d.domain d.staticDir⟩ : MuxEntry) ∈ m₁ :=
          (registerDomain_ok d m m₁ hdm).2.2.1 (by simpa using hsd)
        obtain ⟨msg, herr⟩ := registerDomains_err_root rest m₁ ⟨_, hroot, rfl⟩ hrest
        refine ⟨msg, ?_⟩
        unfold registerDomains
        rw [hdm]
        exact herr
    · rw [List.filter_cons, if_neg hsd] at h2
      cases hdm : registerDomain d m with
      | error msg =>
        refine ⟨msg, ?_⟩
        unfold registerDomains
        rw [hdm]
      | ok m₁ =>
        obtain ⟨msg, herr⟩ := ih m₁ h2
        refine ⟨msg, ?_⟩
        unfold registerDomains
        rw [hdm]
        exact herr

/-- C10: a merged configuration with two or more domains that each have a
non-empty static directory makes `main` panic while registering the
second `"/"` handler on the mux (duplicate pattern), so the server never
starts serving both virtual hosts. -/
theorem C10_theorem (c : Config)
    (h2 : 2 ≤ (c.domains.filter (fun d => d.staticDir != "")).length) :
    ∃ msg, buildMux c = .error msg := by
  obtain ⟨msg, herr⟩ := registerDomains_err_two c.domains [] h2
  refine ⟨msg, ?_⟩
  unfold buildMux
  rw [herr]

/-- Witness for `C10_theorem`: the two-static-domain configuration. -/
theorem C10_witness :
    2 ≤ (exCfgTwoStatic.domains.filter (fun d => d.staticDir != "")).length ∧
    ∃ msg, buildMux exCfgTwoStatic = .error msg :=
  ⟨by decide, C10_theorem exCfgTwoStatic (by decide)⟩

/-- Witness for `C1_theorem` at concrete paths. -/
theorem C1_witness :
    patMatch (parsePat "/api") ["api"] = true ∧
    ¬ patMatch (parsePat "/api") ["api", "v2", "users"] = true :=
  ⟨(C1_theorem.1 ["api"]).mpr rfl,
   fun h => absurd ((C1_theorem.1 ["api", "v2", "users"]).mp h) (by decide)⟩

/-- Witness for `C8_theorem` at a concrete failed load. -/
theorem C8_witness :
    (reloadConfig exCfg (.error "read error")).1 = exCfg ∧
    ("Failed to reload configurations: " ++ "read error") ∈
      (reloadConfig exCfg (.error "read error")).2 :=
  ⟨(C8_theorem exCfg "read error" exCfgEmpty).1,
   (C8_theorem exCfg "read error" exCfgEmpty).2.1⟩

end GhostGate
